import Mathlib

/-!
# BorneoTrace core contracts — shallow embedding

A shallow embedding of the two on-chain asset contracts of the repository,
`CertificateNFT.sol` and `BatchNFT.sol`, together with the fragment of the
inherited OpenZeppelin ERC721 base that the claims observe (the `_owners`
mapping consulted by `_ownerOf` / `ownerOf` / `_exists`, `_mint`, `_transfer`
and the public `transferFrom`).

Modelling conventions:
* Addresses are `Nat`; `0` plays the role of `address(0)`.
* `block.timestamp` is the `now` field of the state.
* Solidity mappings are total functions with the Solidity zero-value default;
  in particular a never-written `Certificate` record has `status = Active`
  (enum value 0) and a never-written `Batch` record has
  `status = PendingVerification` (enum value 0).
* A reverting call is `Except.error e`: the transaction is discarded, so an
  error leaves the state untouched by construction, exactly as an EVM revert.
  The `require` messages of the source are mapped onto the specification's
  error taxonomy: role/ownership checks to `AuthorizationError`, input-shape
  checks to `ValidationError`, `_exists` checks to `NotFoundError`, status /
  already-done checks to `StateConflictError`, and certificate-validity checks
  to `ReferentialError`.
* `ERC721URIStorage._tokenURIs` is not modelled: no claim observes it, and the
  batch / certificate records already carry the `metadataURI` field.
-/

/-- `CertificateNFT.CertificateStatus`; `Active` is the enum zero value. -/
inductive CertificateStatus where
  | Active
  | Expired
  | Revoked
deriving DecidableEq, Repr

/-- `CertificateNFT.Certificate`. -/
structure Certificate where
  certIdString : String
  certType : String
  issuer : Nat
  certifiedEntityAddress : Nat
  issueTimestamp : Nat
  expiryTimestamp : Nat
  status : CertificateStatus
  metadataURI : String
deriving DecidableEq, Repr

/-- The Solidity default value of a `Certificate` storage slot: every field is
zero, which for the `status` enum is `Active`. -/
def defaultCertificate : Certificate :=
  { certIdString := ""
    certType := ""
    issuer := 0
    certifiedEntityAddress := 0
    issueTimestamp := 0
    expiryTimestamp := 0
    status := CertificateStatus.Active
    metadataURI := "" }

/-- `BatchNFT.BatchStatus`; `PendingVerification` is the enum zero value. -/
inductive BatchStatus where
  | PendingVerification
  | Active
  | InTransit
  | Received
  | Cancelled
deriving DecidableEq, Repr

/-- `BatchNFT.Batch`. -/
structure Batch where
  batchId : String
  creator : Nat
  productType : String
  quantity : Nat
  unit : String
  creationTimestamp : Nat
  harvestTimestamp : Nat
  originInfo : String
  status : BatchStatus
  linkedCertificateIds : List Nat
  currentOwner : Nat
  metadataURI : String
deriving DecidableEq, Repr

/-- The Solidity default value of a `Batch` storage slot. -/
def defaultBatch : Batch :=
  { batchId := ""
    creator := 0
    productType := ""
    quantity := 0
    unit := ""
    creationTimestamp := 0
    harvestTimestamp := 0
    originInfo := ""
    status := BatchStatus.PendingVerification
    linkedCertificateIds := []
    currentOwner := 0
    metadataURI := "" }

/-- The specification's error taxonomy (§7), onto which the source's
`require` reverts are mapped. -/
inductive Err where
  | ValidationError
  | AuthorizationError
  | NotFoundError
  | StateConflictError
  | ReferentialError
deriving DecidableEq, Repr

/-- Point update of a Solidity mapping. -/
def updateMap {α : Type} (m : Nat → α) (k : Nat) (v : α) : Nat → α :=
  fun i => if i = k then v else m i

/-- Combined storage of the deployed `CertificateNFT` and `BatchNFT`
contracts, plus the block timestamp. The `certOwners` / `batchOwners` maps
are the ERC721 `_owners` mappings of the two token contracts. -/
structure SysState where
  now : Nat
  -- CertificateNFT storage
  certNextTokenId : Nat
  certOwners : Nat → Nat
  certificates : Nat → Certificate
  authorizedCertifiers : Nat → Bool
  certContractOwner : Nat
  -- BatchNFT storage
  batchNextTokenId : Nat
  batchOwners : Nat → Nat
  batches : Nat → Batch
  authorizedProducers : Nat → Bool
  authorizedVerifiers : Nat → Bool
  pendingVerification : Nat → Bool
  batchContractOwner : Nat

/-- State after both constructors have run: `certDeployer` deploys
`CertificateNFT` (becoming its `Ownable` owner and an authorized certifier),
`batchDeployer` deploys `BatchNFT` (becoming its owner and an authorized
producer and verifier). Both `_nextTokenId` counters start at 0. -/
def initState (certDeployer batchDeployer t0 : Nat) : SysState :=
  { now := t0
    certNextTokenId := 0
    certOwners := fun _ => 0
    certificates := fun _ => defaultCertificate
    authorizedCertifiers := fun a => a == certDeployer
    certContractOwner := certDeployer
    batchNextTokenId := 0
    batchOwners := fun _ => 0
    batches := fun _ => defaultBatch
    authorizedProducers := fun a => a == batchDeployer
    authorizedVerifiers := fun a => a == batchDeployer
    pendingVerification := fun _ => false
    batchContractOwner := batchDeployer }

/-! ## CertificateNFT operations -/

/-- `CertificateNFT.isValid`: status is `Active` and `block.timestamp` has not
passed the stored expiry. Reads the raw mapping, so it also answers on
never-minted ids (whose default record is `Active` with expiry 0). -/
def isValid (s : SysState) (tokenId : Nat) : Bool :=
  let cert := s.certificates tokenId
  cert.status == CertificateStatus.Active && decide (s.now ≤ cert.expiryTimestamp)

/-- `CertificateNFT._exists`: `_ownerOf(tokenId) != address(0)`. -/
def certExists (s : SysState) (tokenId : Nat) : Bool :=
  s.certOwners tokenId != 0

/-- `CertificateNFT.authorizeCertifier`. -/
def authorizeCertifier (s : SysState) (caller certifier : Nat) : Except Err SysState :=
  if s.certContractOwner ≠ caller then .error .AuthorizationError
  else if certifier = 0 then .error .ValidationError
  else if s.authorizedCertifiers certifier then .error .StateConflictError
  else .ok { s with authorizedCertifiers := updateMap s.authorizedCertifiers certifier true }

/-- `CertificateNFT.revokeCertifier`. -/
def revokeCertifier (s : SysState) (caller certifier : Nat) : Except Err SysState :=
  if s.certContractOwner ≠ caller then .error .AuthorizationError
  else if !(s.authorizedCertifiers certifier) then .error .ValidationError
  else .ok { s with authorizedCertifiers := updateMap s.authorizedCertifiers certifier false }

/-- `CertificateNFT.mintCertificate`. The `ERC721._mint` call reverts when the
recipient is the zero address (already excluded by the explicit `require`) or
when the token id already has an owner. -/
def mintCertificate (s : SysState) (caller : Nat) (certIdString certType : String)
    (certifiedEntityAddress validityPeriod : Nat) (metadataURI : String) :
    Except Err (SysState × Nat) :=
  if !(s.authorizedCertifiers caller) then .error .AuthorizationError
  else if certIdString.length = 0 then .error .ValidationError
  else if certifiedEntityAddress = 0 then .error .ValidationError
  else if validityPeriod = 0 then .error .ValidationError
  else
    let newTokenId := s.certNextTokenId
    if s.certOwners newTokenId ≠ 0 then .error .StateConflictError
    else
      let newCert : Certificate :=
        { certIdString := certIdString, certType := certType, issuer := caller,
          certifiedEntityAddress := certifiedEntityAddress, issueTimestamp := s.now,
          expiryTimestamp := s.now + validityPeriod,
          status := CertificateStatus.Active, metadataURI := metadataURI }
      let s' : SysState :=
        { s with
          certNextTokenId := newTokenId + 1,
          certOwners := updateMap s.certOwners newTokenId certifiedEntityAddress,
          certificates := updateMap s.certificates newTokenId newCert }
      .ok (s', newTokenId)

/-- `CertificateNFT.revokeCertificate`. Note: no `_exists` check — the record
is read from the raw mapping, so the default (never-minted) record, whose
status is `Active` and whose issuer is the zero address, passes the status
check, and the contract owner passes the authorization check. The `reason`
argument only feeds the emitted event. -/
def revokeCertificate (s : SysState) (caller tokenId : Nat) (reason : String) :
    Except Err SysState :=
  let cert := s.certificates tokenId
  if !(cert.issuer == caller || s.certContractOwner == caller) then .error .AuthorizationError
  else if cert.status ≠ CertificateStatus.Active then .error .StateConflictError
  else
    let cert' : Certificate := { cert with status := CertificateStatus.Revoked }
    .ok { s with certificates := updateMap s.certificates tokenId cert' }

/-- `CertificateNFT.getCertificate`. -/
def getCertificate (s : SysState) (tokenId : Nat) : Except Err Certificate :=
  if !(certExists s tokenId) then .error .NotFoundError
  else .ok (s.certificates tokenId)

/-! ## BatchNFT operations -/

/-- `BatchNFT._exists`: `_ownerOf(tokenId) != address(0)`. The batch NFT is
minted only by `verifyBatch`, so this is false for created-but-unverified
batches. -/
def batchExists (s : SysState) (tokenId : Nat) : Bool :=
  s.batchOwners tokenId != 0

/-- `BatchNFT.authorizeProducer`. -/
def authorizeProducer (s : SysState) (caller producer : Nat) : Except Err SysState :=
  if s.batchContractOwner ≠ caller then .error .AuthorizationError
  else if producer = 0 then .error .ValidationError
  else if s.authorizedProducers producer then .error .StateConflictError
  else .ok { s with authorizedProducers := updateMap s.authorizedProducers producer true }

/-- `BatchNFT.revokeProducer`. -/
def revokeProducer (s : SysState) (caller producer : Nat) : Except Err SysState :=
  if s.batchContractOwner ≠ caller then .error .AuthorizationError
  else if !(s.authorizedProducers producer) then .error .ValidationError
  else .ok { s with authorizedProducers := updateMap s.authorizedProducers producer false }

/-- `BatchNFT.authorizeVerifier`. -/
def authorizeVerifier (s : SysState) (caller verifier : Nat) : Except Err SysState :=
  if s.batchContractOwner ≠ caller then .error .AuthorizationError
  else if verifier = 0 then .error .ValidationError
  else if s.authorizedVerifiers verifier then .error .StateConflictError
  else .ok { s with authorizedVerifiers := updateMap s.authorizedVerifiers verifier true }

/-- `BatchNFT.revokeVerifier`. -/
def revokeVerifier (s : SysState) (caller verifier : Nat) : Except Err SysState :=
  if s.batchContractOwner ≠ caller then .error .AuthorizationError
  else if !(s.authorizedVerifiers verifier) then .error .ValidationError
  else .ok { s with authorizedVerifiers := updateMap s.authorizedVerifiers verifier false }

/-- `BatchNFT.createBatch`. Checks producer role, non-empty external id,
positive quantity, then `isValid` on every entry of `linkedCertificateIds`
(in order; the first failure aborts the whole call), and only then assigns
`_nextTokenId++`, stores the record with the input list copied verbatim, and
sets the pending-verification flag. No NFT is minted here. -/
def createBatch (s : SysState) (caller : Nat) (batchId productType : String)
    (quantity : Nat) (unit : String) (harvestTimestamp : Nat) (originInfo : String)
    (linkedCertificateIds : List Nat) (metadataURI : String) :
    Except Err (SysState × Nat) :=
  if !(s.authorizedProducers caller) then .error .AuthorizationError
  else if batchId.length = 0 then .error .ValidationError
  else if quantity = 0 then .error .ValidationError
  else if !(linkedCertificateIds.all (fun certId => isValid s certId)) then
    .error .ReferentialError
  else
    let newTokenId := s.batchNextTokenId
    let newBatch : Batch :=
      { batchId := batchId, creator := caller, productType := productType,
        quantity := quantity, unit := unit, creationTimestamp := s.now,
        harvestTimestamp := harvestTimestamp, originInfo := originInfo,
        status := BatchStatus.PendingVerification,
        linkedCertificateIds := linkedCertificateIds,
        currentOwner := caller, metadataURI := metadataURI }
    let s' : SysState :=
      { s with
        batchNextTokenId := newTokenId + 1,
        batches := updateMap s.batches newTokenId newBatch,
        pendingVerification := updateMap s.pendingVerification newTokenId true }
    .ok (s', newTokenId)

/-- `BatchNFT.verifyBatch`: requires the verifier role and the
pending-verification flag, then `_mint`s the NFT to the batch creator
(`_mint` reverts on a zero recipient or an already-owned id), sets the status
to `Active` and clears the flag. -/
def verifyBatch (s : SysState) (caller tokenId : Nat) : Except Err SysState :=
  if !(s.authorizedVerifiers caller) then .error .AuthorizationError
  else if !(s.pendingVerification tokenId) then .error .StateConflictError
  else
    let batch := s.batches tokenId
    if batch.creator = 0 then .error .ValidationError
    else if s.batchOwners tokenId ≠ 0 then .error .StateConflictError
    else
      let batch' : Batch := { batch with status := BatchStatus.Active }
      .ok { s with
            batchOwners := updateMap s.batchOwners tokenId batch.creator,
            batches := updateMap s.batches tokenId batch',
            pendingVerification := updateMap s.pendingVerification tokenId false }

/-- `BatchNFT.transferBatch`: `_exists`, then `ownerOf(tokenId) == msg.sender`,
a non-zero recipient, status `Active` or `InTransit`; transfers the NFT and
sets `status = Received`, `currentOwner = to`. -/
def transferBatch (s : SysState) (caller tokenId toAddr : Nat) : Except Err SysState :=
  if !(batchExists s tokenId) then .error .NotFoundError
  else if s.batchOwners tokenId ≠ caller then .error .AuthorizationError
  else if toAddr = 0 then .error .ValidationError
  else
    let batch := s.batches tokenId
    if !(batch.status == BatchStatus.Active || batch.status == BatchStatus.InTransit) then
      .error .StateConflictError
    else
      let batch' : Batch := { batch with status := BatchStatus.Received, currentOwner := toAddr }
      .ok { s with
            batchOwners := updateMap s.batchOwners tokenId toAddr,
            batches := updateMap s.batches tokenId batch' }

/-- `BatchNFT.markAsInTransit`: `_exists`, `ownerOf` is the caller, status
`Active`; sets status to `InTransit`. -/
def markAsInTransit (s : SysState) (caller tokenId : Nat) : Except Err SysState :=
  if !(batchExists s tokenId) then .error .NotFoundError
  else if s.batchOwners tokenId ≠ caller then .error .AuthorizationError
  else
    let batch := s.batches tokenId
    if batch.status ≠ BatchStatus.Active then .error .StateConflictError
    else
      let batch' : Batch := { batch with status := BatchStatus.InTransit }
      .ok { s with batches := updateMap s.batches tokenId batch' }

/-- `BatchNFT.cancelBatch`: `_exists`, caller is the batch creator, the stored
`currentOwner` or the contract owner, and status is not already `Cancelled`;
sets status to `Cancelled`. The `reason` argument only feeds the event. -/
def cancelBatch (s : SysState) (caller tokenId : Nat) (reason : String) :
    Except Err SysState :=
  if !(batchExists s tokenId) then .error .NotFoundError
  else
    let batch := s.batches tokenId
    if !(batch.creator == caller || batch.currentOwner == caller ||
        s.batchContractOwner == caller) then .error .AuthorizationError
    else if batch.status = BatchStatus.Cancelled then .error .StateConflictError
    else
      let batch' : Batch := { batch with status := BatchStatus.Cancelled }
      .ok { s with batches := updateMap s.batches tokenId batch' }

/-- `BatchNFT.linkCertificate`: `_exists`, caller is the batch creator or the
stored `currentOwner`, the certificate passes `isValid`, and the certificate
id is not already in the batch's list; appends it. There is no check on the
batch's status. -/
def linkCertificate (s : SysState) (caller tokenId certificateId : Nat) :
    Except Err SysState :=
  if !(batchExists s tokenId) then .error .NotFoundError
  else
    let batch := s.batches tokenId
    if !(batch.creator == caller || batch.currentOwner == caller) then
      .error .AuthorizationError
    else if !(isValid s certificateId) then .error .ReferentialError
    else if batch.linkedCertificateIds.contains certificateId then .error .StateConflictError
    else
      let batch' : Batch :=
        { batch with linkedCertificateIds := batch.linkedCertificateIds ++ [certificateId] }
      .ok { s with batches := updateMap s.batches tokenId batch' }

/-- `BatchNFT.getBatch`: `_exists`, then returns the stored record. -/
def getBatch (s : SysState) (tokenId : Nat) : Except Err Batch :=
  if !(batchExists s tokenId) then .error .NotFoundError
  else .ok (s.batches tokenId)

/-- `BatchNFT.getPendingBatches`: requires the verifier role and scans token
ids `1 ≤ i < _nextTokenId` (the source loops `for (i = 1; i < _nextTokenId;
i++)`), collecting those whose pending flag is set. -/
def getPendingBatches (s : SysState) (caller : Nat) : Except Err (List Nat) :=
  if !(s.authorizedVerifiers caller) then .error .AuthorizationError
  else .ok (((List.range s.batchNextTokenId).drop 1).filter
    (fun i => s.pendingVerification i))

/-- The inherited `ERC721.transferFrom` on the `BatchNFT` token, in the
owner-initiated case (`msg.sender == ownerOf(tokenId)`; approval-granted
callers are not modelled since no modelled operation reads approvals).
OpenZeppelin's `transferFrom` requires a non-zero recipient, an existing
token, an authorized caller and `from == ownerOf(tokenId)`, then updates only
the `_owners` mapping: no field of the `Batch` record is touched. -/
def erc721TransferFrom (s : SysState) (caller fromAddr toAddr tokenId : Nat) :
    Except Err SysState :=
  if toAddr = 0 then .error .ValidationError
  else if s.batchOwners tokenId = 0 then .error .NotFoundError
  else if s.batchOwners tokenId ≠ caller then .error .AuthorizationError
  else if s.batchOwners tokenId ≠ fromAddr then .error .ValidationError
  else .ok { s with batchOwners := updateMap s.batchOwners tokenId toAddr }

/-! ## Transition system -/

/-- One externally submitted transaction against the deployed contracts.
`tick` models the block timestamp advancing between transactions. -/
inductive Op where
  | tick (dt : Nat)
  | authorizeCertifier (caller certifier : Nat)
  | revokeCertifier (caller certifier : Nat)
  | mintCertificate (caller : Nat) (certIdString certType : String)
      (certifiedEntityAddress validityPeriod : Nat) (metadataURI : String)
  | revokeCertificate (caller tokenId : Nat) (reason : String)
  | authorizeProducer (caller producer : Nat)
  | revokeProducer (caller producer : Nat)
  | authorizeVerifier (caller verifier : Nat)
  | revokeVerifier (caller verifier : Nat)
  | createBatch (caller : Nat) (batchId productType : String) (quantity : Nat)
      (unit : String) (harvestTimestamp : Nat) (originInfo : String)
      (linkedCertificateIds : List Nat) (metadataURI : String)
  | verifyBatch (caller tokenId : Nat)
  | transferBatch (caller tokenId toAddr : Nat)
  | markAsInTransit (caller tokenId : Nat)
  | cancelBatch (caller tokenId : Nat) (reason : String)
  | linkCertificate (caller tokenId certificateId : Nat)
  | erc721TransferFrom (caller fromAddr toAddr tokenId : Nat)

/-- Effect of one transaction on the state (return values dropped). -/
def step (op : Op) (s : SysState) : Except Err SysState :=
  match op with
  | .tick dt => .ok { s with now := s.now + dt }
  | .authorizeCertifier c a => authorizeCertifier s c a
  | .revokeCertifier c a => revokeCertifier s c a
  | .mintCertificate c i t e v m => (mintCertificate s c i t e v m).map (fun p => p.1)
  | .revokeCertificate c id r => revokeCertificate s c id r
  | .authorizeProducer c a => authorizeProducer s c a
  | .revokeProducer c a => revokeProducer s c a
  | .authorizeVerifier c a => authorizeVerifier s c a
  | .revokeVerifier c a => revokeVerifier s c a
  | .createBatch c b p q u h o l m => (createBatch s c b p q u h o l m).map (fun p2 => p2.1)
  | .verifyBatch c id => verifyBatch s c id
  | .transferBatch c id t => transferBatch s c id t
  | .markAsInTransit c id => markAsInTransit s c id
  | .cancelBatch c id r => cancelBatch s c id r
  | .linkCertificate c id cid => linkCertificate s c id cid
  | .erc721TransferFrom c f t id => erc721TransferFrom s c f t id

/-- States reachable from a fresh deployment by successful transactions. -/
inductive Reachable : SysState → Prop where
  | init (certDeployer batchDeployer t0 : Nat) (hc : certDeployer ≠ 0)
      (hb : batchDeployer ≠ 0) : Reachable (initState certDeployer batchDeployer t0)
  | next (op : Op) (s s' : SysState) : Reachable s → step op s = .ok s' → Reachable s'

/-- Side condition for the corrected duplicate-freedom claim: the transaction
is not a `createBatch` whose input certificate list itself has duplicates. -/
def nodupCreateInput : Op → Prop
  | .createBatch _ _ _ _ _ _ _ linkedCertificateIds _ => linkedCertificateIds.Nodup
  | _ => True

/-- States reachable when every `createBatch` transaction in the history was
given a duplicate-free certificate list. -/
inductive ReachableND : SysState → Prop where
  | init (certDeployer batchDeployer t0 : Nat) (hc : certDeployer ≠ 0)
      (hb : batchDeployer ≠ 0) : ReachableND (initState certDeployer batchDeployer t0)
  | next (op : Op) (s s' : SysState) : ReachableND s → nodupCreateInput op →
      step op s = .ok s' → ReachableND s'

/-! ## Concrete states for witnesses and counterexamples

A fixed scenario: address 1 deploys `CertificateNFT`, address 2 deploys
`BatchNFT`, at timestamp 100. Certifier 1 mints certificate 0 to entity 5;
producer 2 creates batch 0 linking it, the batch is verified, cancelled, and
a second certificate is minted. -/

/-- Extract the post-state of an id-returning call, with a fallback. -/
def okStateP (r : Except Err (SysState × Nat)) (fb : SysState) : SysState :=
  match r with
  | .ok p => p.1
  | .error _ => fb

/-- Extract the post-state of a call, with a fallback. -/
def okState (r : Except Err SysState) (fb : SysState) : SysState :=
  match r with
  | .ok s => s
  | .error _ => fb

def cs0 : SysState := initState 1 2 100

def cs1 : SysState := okStateP (mintCertificate cs0 1 "HALAL-1" "Halal" 5 3600 "uri") cs0

def cs2 : SysState := okStateP (createBatch cs1 2 "B-1" "Palm" 10 "kg" 50 "Sabah" [0] "uri") cs1

def cs3 : SysState := okState (verifyBatch cs2 2 0) cs2

def cs4 : SysState := okState (cancelBatch cs3 2 0 "bad") cs3

def cs5 : SysState := okStateP (mintCertificate cs4 1 "HALAL-2" "Halal" 6 3600 "uri") cs4

def cs6 : SysState := okState (linkCertificate cs5 2 0 1) cs5

theorem reachable_cs0 : Reachable cs0 :=
  Reachable.init 1 2 100 (by decide) (by decide)

theorem reachable_cs1 : Reachable cs1 :=
  Reachable.next (Op.mintCertificate 1 "HALAL-1" "Halal" 5 3600 "uri") cs0 cs1
    reachable_cs0 rfl

theorem reachable_cs2 : Reachable cs2 :=
  Reachable.next (Op.createBatch 2 "B-1" "Palm" 10 "kg" 50 "Sabah" [0] "uri") cs1 cs2
    reachable_cs1 rfl

theorem reachable_cs3 : Reachable cs3 :=
  Reachable.next (Op.verifyBatch 2 0) cs2 cs3 reachable_cs2 rfl

theorem reachable_cs4 : Reachable cs4 :=
  Reachable.next (Op.cancelBatch 2 0 "bad") cs3 cs4 reachable_cs3 rfl

theorem reachable_cs5 : Reachable cs5 :=
  Reachable.next (Op.mintCertificate 1 "HALAL-2" "Halal" 6 3600 "uri") cs4 cs5
    reachable_cs4 rfl

/-! ## C5 — getBatch and existence -/

/-- C5 (amended): `getBatch(id)` fails with `NotFoundError` exactly when the
batch NFT at `id` has not been minted (which happens only in `verifyBatch`);
when the NFT exists it returns the stored record. In particular an id that
`createBatch` returned but that is still in `PendingVerification` fails. -/
theorem getBatch_ok_iff_minted (s : SysState) (tokenId : Nat) :
    (batchExists s tokenId = true → getBatch s tokenId = .ok (s.batches tokenId))
    ∧ (batchExists s tokenId = false → getBatch s tokenId = .error .NotFoundError) := by
  constructor
  · intro h
    simp [getBatch, h]
  · intro h
    simp [getBatch, h]

/-- Witness for C5's theorem at a concrete minted batch. -/
theorem getBatch_ok_iff_minted_witness :
    getBatch cs3 0 = .ok (cs3.batches 0) :=
  (getBatch_ok_iff_minted cs3 0).1 (by decide)

/-- C5 counterexample: in the reachable state `cs2`, `createBatch`
has just returned id 0 (the batch is recorded and pending), yet
`getBatch 0` fails with `NotFoundError`, contradicting the claim that every
id returned by a successful create — including one still pending — can be
fetched. -/
theorem getBatch_pending_counterexample :
    Reachable cs2
    ∧ createBatch cs1 2 "B-1" "Palm" 10 "kg" 50 "Sabah" [0] "uri" = .ok (cs2, 0)
    ∧ cs2.pendingVerification 0 = true
    ∧ getBatch cs2 0 = .error .NotFoundError :=
  ⟨reachable_cs2, rfl, rfl, rfl⟩

/-! ## C3 — cancelBatch -/

/-- C3 (amended): `cancelBatch` first requires the batch NFT to exist, which
is true only after `verifyBatch` has minted it — so a batch still in
`PendingVerification` is NOT cancellable: the call fails with
`NotFoundError`. For an existing (minted) batch, a caller who is the batch
creator, the stored current owner, or the contract owner succeeds whenever
the status is not already `Cancelled` (setting it to `Cancelled`), and fails
with `StateConflictError` exactly when the status is already `Cancelled`. -/
theorem cancelBatch_spec (s : SysState) (caller tokenId : Nat) (reason : String) :
    (batchExists s tokenId = false →
      cancelBatch s caller tokenId reason = .error .NotFoundError)
    ∧ (batchExists s tokenId = true →
        ((s.batches tokenId).creator = caller ∨ (s.batches tokenId).currentOwner = caller ∨
          s.batchContractOwner = caller) →
        (((s.batches tokenId).status ≠ BatchStatus.Cancelled →
            ∃ s', cancelBatch s caller tokenId reason = .ok s'
              ∧ (s'.batches tokenId).status = BatchStatus.Cancelled)
          ∧ ((s.batches tokenId).status = BatchStatus.Cancelled →
            cancelBatch s caller tokenId reason = .error .StateConflictError))) := by
  constructor
  · intro h
    simp [cancelBatch, h]
  · intro hex hauth
    have hauth' : ((s.batches tokenId).creator == caller
        || (s.batches tokenId).currentOwner == caller
        || s.batchContractOwner == caller) = true := by
      rcases hauth with h | h | h <;> simp [h]
    constructor
    · intro hst
      refine ⟨{ s with batches := updateMap s.batches tokenId ({ s.batches tokenId with status := BatchStatus.Cancelled }) }, ?_, ?_⟩
      · simp [cancelBatch, hex, hauth', hst]
      · simp [updateMap]
    · intro hst
      simp [cancelBatch, hex, hauth', hst]

/-- Witness for C3's theorem: in the concrete reachable state `cs3`, batch 0
is minted and `Active`, and the creator cancels it. -/
theorem cancelBatch_spec_witness :
    ∃ s', cancelBatch cs3 2 0 "bad" = .ok s'
      ∧ (s'.batches 0).status = BatchStatus.Cancelled :=
  (((cancelBatch_spec cs3 2 0 "bad").2 (by rfl) (Or.inl (by rfl))).1 (by decide))

/-- C3 counterexample: in the reachable state `cs2`, batch 0 exists in the
ledger sense (it was created and is pending, status `PendingVerification`,
not `Cancelled`) and the caller is its creator, yet `cancelBatch` fails with
`NotFoundError` — not success, and not `StateConflictError` — because the
NFT has not been minted yet. This contradicts the claim that a batch still
in `PendingVerification` can be cancelled and that `StateConflictError` is
the only failure for authorized callers. -/
theorem cancelBatch_pending_counterexample :
    Reachable cs2
    ∧ (cs2.batches 0).status = BatchStatus.PendingVerification
    ∧ (cs2.batches 0).creator = 2
    ∧ cancelBatch cs2 2 0 "r" = .error .NotFoundError :=
  ⟨reachable_cs2, rfl, rfl, rfl⟩

/-! ## C4 — linkCertificate -/

/-- C4 (amended): `linkCertificate` requires the batch NFT to exist (minted
by `verifyBatch`), so a batch still in `PendingVerification` fails with
`NotFoundError`. For an existing batch there is NO status restriction at
all — the success conditions are only that the caller is the creator or the
stored current owner, the certificate passes `isValid`, and the id is not
already linked; in particular the call also succeeds on a `Cancelled`
batch. On success the id is appended to `linkedCertificateIds`. -/
theorem linkCertificate_spec (s : SysState) (caller tokenId certificateId : Nat) :
    (batchExists s tokenId = false →
      linkCertificate s caller tokenId certificateId = .error .NotFoundError)
    ∧ (batchExists s tokenId = true →
        ((s.batches tokenId).creator = caller ∨ (s.batches tokenId).currentOwner = caller) →
        isValid s certificateId = true →
        certificateId ∉ (s.batches tokenId).linkedCertificateIds →
        ∃ s', linkCertificate s caller tokenId certificateId = .ok s'
          ∧ (s'.batches tokenId).linkedCertificateIds
              = (s.batches tokenId).linkedCertificateIds ++ [certificateId]
          ∧ (s'.batches tokenId).status = (s.batches tokenId).status) := by
  constructor
  · intro h
    simp [linkCertificate, h]
  · intro hex hauth hval hmem
    have hauth' : ((s.batches tokenId).creator == caller
        || (s.batches tokenId).currentOwner == caller) = true := by
      rcases hauth with h | h <;> simp [h]
    have hmem' : (s.batches tokenId).linkedCertificateIds.contains certificateId = false := by
      simpa using hmem
    refine ⟨{ s with batches := updateMap s.batches tokenId ({ s.batches tokenId with linkedCertificateIds := (s.batches tokenId).linkedCertificateIds ++ [certificateId] }) }, ?_, ?_, ?_⟩
    · simp only [linkCertificate, hex, hauth', hval, hmem']
      simp
    · simp [updateMap]
    · simp [updateMap]

/-- Witness for C4's theorem: in `cs5`, batch 0 is minted and certificate 1
is fresh and valid; the creator links it. -/
theorem linkCertificate_spec_witness :
    ∃ s', linkCertificate cs5 2 0 1 = .ok s'
      ∧ (s'.batches 0).linkedCertificateIds = (cs5.batches 0).linkedCertificateIds ++ [1]
      ∧ (s'.batches 0).status = (cs5.batches 0).status :=
  ((linkCertificate_spec cs5 2 0 1).2 (by rfl) (Or.inl (by rfl)) (by rfl) (by decide))

/-- C4 counterexample: in the reachable state `cs2` the pending batch 0
cannot be linked (`NotFoundError`, contradicting "for every batch in any
non-Cancelled status including PendingVerification ... succeeds"), while in
the reachable state `cs5` batch 0 has status `Cancelled` and linking the
valid, not-yet-linked certificate 1 succeeds (contradicting "never succeeds
on a batch whose status is Cancelled"). -/
theorem linkCertificate_counterexample :
    Reachable cs2
    ∧ (cs2.batches 0).status = BatchStatus.PendingVerification
    ∧ linkCertificate cs2 2 0 0 = .error .NotFoundError
    ∧ Reachable cs5
    ∧ (cs5.batches 0).status = BatchStatus.Cancelled
    ∧ isValid cs5 1 = true
    ∧ linkCertificate cs5 2 0 1 = .ok cs6
    ∧ (cs6.batches 0).linkedCertificateIds = [0, 1] :=
  ⟨reachable_cs2, rfl, rfl, reachable_cs5, rfl, rfl, rfl, rfl⟩

/-! ## C7 — createBatch atomicity -/

/-- C7 (confirmed): when a producer calls `createBatch` with well-formed
scalar inputs but a certificate list containing at least one id that fails
`isValid`, the call reverts with `ReferentialError`. A revert discards the
transaction, so nothing is persisted; in particular the same state still
assigns `batchNextTokenId` as the id of the next successful create (second
conjunct), i.e. the failed call consumed no id. -/
theorem createBatch_invalid_cert_atomic (s : SysState) (caller : Nat)
    (batchId productType : String) (quantity : Nat) (unit : String)
    (harvestTimestamp : Nat) (originInfo : String) (linkedCertificateIds : List Nat)
    (metadataURI : String)
    (hprod : s.authorizedProducers caller = true)
    (hid : batchId.length ≠ 0) (hq : quantity ≠ 0)
    (hinv : ∃ c ∈ linkedCertificateIds, isValid s c = false) :
    createBatch s caller batchId productType quantity unit harvestTimestamp originInfo
        linkedCertificateIds metadataURI = .error .ReferentialError
    ∧ (∀ l2 : List Nat, l2.all (fun c => isValid s c) = true →
        (createBatch s caller batchId productType quantity unit harvestTimestamp originInfo
          l2 metadataURI).map Prod.snd = .ok s.batchNextTokenId) := by
  have hall : linkedCertificateIds.all (fun c => isValid s c) = false := by
    obtain ⟨c, hc, hcf⟩ := hinv
    rw [List.all_eq_false]
    exact ⟨c, hc, by simp [hcf]⟩
  constructor
  · simp [createBatch, hprod, hid, hq, hall]
  · intro l2 hl2
    simp [createBatch, hprod, hid, hq, hl2, Except.map]

/-- Witness for C7's theorem: in `cs1`, certificate 0 is valid but
certificate 1 is the default record (invalid at time 100), so a create
citing `[0, 1]` fails with `ReferentialError`, and a create citing `[0]`
from the same state is assigned id `cs1.batchNextTokenId = 0`. -/
theorem createBatch_invalid_cert_atomic_witness :
    createBatch cs1 2 "B-X" "Palm" 7 "kg" 50 "Sabah" [0, 1] "uri"
        = .error .ReferentialError
    ∧ (createBatch cs1 2 "B-X" "Palm" 7 "kg" 50 "Sabah" [0] "uri").map Prod.snd
        = .ok cs1.batchNextTokenId :=
  ⟨(createBatch_invalid_cert_atomic cs1 2 "B-X" "Palm" 7 "kg" 50 "Sabah" [0, 1] "uri"
      rfl (by decide) (by decide) ⟨1, by decide, rfl⟩).1,
   (createBatch_invalid_cert_atomic cs1 2 "B-X" "Palm" 7 "kg" 50 "Sabah" [0, 1] "uri"
      rfl (by decide) (by decide) ⟨1, by decide, rfl⟩).2 [0] rfl⟩

/-! ## C9 — revoking a never-minted certificate id -/

/-- C9 (confirmed): `revokeCertificate` never checks `_exists`. For a token
id whose storage slot is still the default record (never minted), the
default status is `Active` (enum zero) and the default issuer is the zero
address, so a call by the contract owner passes both `require`s: it does not
fail with `NotFoundError`, it succeeds, and it writes `Revoked` into the
default record at that id. -/
theorem revokeCertificate_unminted (s : SysState) (caller tokenId : Nat) (reason : String)
    (hadmin : s.certContractOwner = caller)
    (hnmint : certExists s tokenId = false)
    (hdef : s.certificates tokenId = defaultCertificate) :
    revokeCertificate s caller tokenId reason = .ok { s with certificates := updateMap s.certificates tokenId ({ defaultCertificate with status := CertificateStatus.Revoked }) } := by
  simp [revokeCertificate, hdef, hadmin, defaultCertificate]

/-- Witness for C9's theorem: in the fresh deployment `cs0` no certificate
was ever minted, yet the contract owner (address 1) revokes id 7. -/
theorem revokeCertificate_unminted_witness :
    revokeCertificate cs0 1 7 "fraud" = .ok { cs0 with certificates := updateMap cs0.certificates 7 ({ defaultCertificate with status := CertificateStatus.Revoked }) } :=
  revokeCertificate_unminted cs0 1 7 "fraud" rfl rfl rfl

/-! ## C6 — getPendingBatches skips the first token id -/

/-- C6 (code bug): `createBatch` assigns ids starting at 0 (`_nextTokenId`
is never initialised, so the first batch gets id 0), but the scan in
`getPendingBatches` starts at `i = 1`. In the reachable state `cs2` the
first-ever batch (id 0) is pending, yet a verifier's `getPendingBatches`
returns the empty list — omitting a pending id, contrary to the function's
own documentation ("Array of batch IDs pending verification") and to the
repository's tests, which assume ids start at 1. -/
theorem getPendingBatches_skips_id_zero :
    Reachable cs2
    ∧ cs2.pendingVerification 0 = true
    ∧ cs2.batchNextTokenId = 1
    ∧ getPendingBatches cs2 2 = .ok [] :=
  ⟨reachable_cs2, rfl, rfl, rfl⟩

/-! ## C2 — certificate status transitions -/

/-- State after the contract owner revokes the never-minted id 0 in the
fresh deployment. -/
def rs1 : SysState := okState (revokeCertificate cs0 1 0 "pre-revoke") cs0

/-- State after the first real certificate is then minted: it is assigned
id 0 and its record overwrites the revoked slot. -/
def rs2 : SysState := okStateP (mintCertificate rs1 1 "C-R" "Halal" 5 10 "uri") rs1

theorem reachable_rs1 : Reachable rs1 :=
  Reachable.next (Op.revokeCertificate 1 0 "pre-revoke") cs0 rs1 reachable_cs0 rfl

theorem reachable_rs2 : Reachable rs2 :=
  Reachable.next (Op.mintCertificate 1 "C-R" "Halal" 5 10 "uri") rs1 rs2 reachable_rs1 rfl

/-- C2 counterexample: a reachable operation history in which the stored
status of certificate id 0 transitions from `Revoked` back to `Active`: the
contract owner revokes the never-minted id 0 (allowed — see C9), and the
first `mintCertificate` then assigns id 0 and overwrites the record with
a fresh `Active` one. -/
theorem certificateStatus_revoked_to_active_counterexample :
    Reachable rs1
    ∧ (rs1.certificates 0).status = CertificateStatus.Revoked
    ∧ mintCertificate rs1 1 "C-R" "Halal" 5 10 "uri" = .ok (rs2, 0)
    ∧ Reachable rs2
    ∧ (rs2.certificates 0).status = CertificateStatus.Active :=
  ⟨reachable_rs1, rfl, rfl, reachable_rs2, rfl⟩

/-- C2 (amended): in any single transition, the stored status of a
certificate id changes only in two ways: `revokeCertificate` turns an
`Active` record `Revoked`, or `mintCertificate` overwrites the slot at the
freshly assigned id (`certNextTokenId`, necessarily not yet minted) with a
new `Active` record — which is a `Revoked → Active` change when that slot
had been revoked before ever being minted. No other operation changes any
stored certificate status. -/
theorem certificateStatus_step_cases (op : Op) (s s' : SysState) (id : Nat)
    (h : step op s = .ok s')
    (hne : (s'.certificates id).status ≠ (s.certificates id).status) :
    ((s.certificates id).status = CertificateStatus.Active
        ∧ (s'.certificates id).status = CertificateStatus.Revoked)
    ∨ (id = s.certNextTokenId ∧ certExists s id = false
        ∧ (s'.certificates id).status = CertificateStatus.Active
        ∧ ∃ c ds ts e v m, op = Op.mintCertificate c ds ts e v m) := by
  cases op with
  | tick dt =>
    simp only [step] at h
    injection h with h
    subst h
    exact absurd rfl hne
  | authorizeCertifier c a =>
    simp only [step, authorizeCertifier] at h
    split_ifs at h
    injection h with h
    subst h
    exact absurd rfl hne
  | revokeCertifier c a =>
    simp only [step, revokeCertifier] at h
    split_ifs at h
    injection h with h
    subst h
    exact absurd rfl hne
  | mintCertificate c ds ts e v m =>
    simp only [step, mintCertificate] at h
    split_ifs at h with h1 h2 h3 h4 h5
    all_goals simp only [Except.map] at h
    all_goals try exact Except.noConfusion h
    injection h with h
    subst h
    by_cases hid : id = s.certNextTokenId
    · subst hid
      refine Or.inr ⟨rfl, ?_, ?_, c, ds, ts, e, v, m, rfl⟩
      · simp only [certExists, bne_eq_false_iff_eq]
        exact not_ne_iff.mp h5
      · simp [updateMap]
    · exact absurd (by simp [updateMap, hid]) hne
  | revokeCertificate c tid r =>
    simp only [step, revokeCertificate] at h
    split_ifs at h with h1 h2
    injection h with h
    subst h
    by_cases hid : id = tid
    · subst hid
      refine Or.inl ⟨not_ne_iff.mp h2, ?_⟩
      simp [updateMap]
    · exact absurd (by simp [updateMap, hid]) hne
  | authorizeProducer c a =>
    simp only [step, authorizeProducer] at h
    split_ifs at h
    injection h with h
    subst h
    exact absurd rfl hne
  | revokeProducer c a =>
    simp only [step, revokeProducer] at h
    split_ifs at h
    injection h with h
    subst h
    exact absurd rfl hne
  | authorizeVerifier c a =>
    simp only [step, authorizeVerifier] at h
    split_ifs at h
    injection h with h
    subst h
    exact absurd rfl hne
  | revokeVerifier c a =>
    simp only [step, revokeVerifier] at h
    split_ifs at h
    injection h with h
    subst h
    exact absurd rfl hne
  | createBatch c b p q u hts o l m =>
    simp only [step, createBatch] at h
    split_ifs at h
    all_goals simp only [Except.map] at h
    all_goals try exact Except.noConfusion h
    injection h with h
    subst h
    exact absurd rfl hne
  | verifyBatch c tid =>
    simp only [step, verifyBatch] at h
    split_ifs at h
    injection h with h
    subst h
    exact absurd rfl hne
  | transferBatch c tid t =>
    simp only [step, transferBatch] at h
    split_ifs at h
    injection h with h
    subst h
    exact absurd rfl hne
  | markAsInTransit c tid =>
    simp only [step, markAsInTransit] at h
    split_ifs at h
    injection h with h
    subst h
    exact absurd rfl hne
  | cancelBatch c tid r =>
    simp only [step, cancelBatch] at h
    split_ifs at h
    injection h with h
    subst h
    exact absurd rfl hne
  | linkCertificate c tid cid =>
    simp only [step, linkCertificate] at h
    split_ifs at h
    injection h with h
    subst h
    exact absurd rfl hne
  | erc721TransferFrom c f t tid =>
    simp only [step, erc721TransferFrom] at h
    split_ifs at h
    injection h with h
    subst h
    exact absurd rfl hne

/-- Witness for C2's amended theorem: the `Revoked → Active` overwrite in
the concrete history `rs1 → rs2` is classified by the theorem as a fresh
`mintCertificate` assignment. -/
theorem certificateStatus_step_cases_witness :
    ((rs1.certificates 0).status = CertificateStatus.Active
        ∧ (rs2.certificates 0).status = CertificateStatus.Revoked)
    ∨ (0 = rs1.certNextTokenId ∧ certExists rs1 0 = false
        ∧ (rs2.certificates 0).status = CertificateStatus.Active
        ∧ ∃ c ds ts e v m,
            Op.mintCertificate 1 "C-R" "Halal" 5 10 "uri" = Op.mintCertificate c ds ts e v m) :=
  certificateStatus_step_cases (Op.mintCertificate 1 "C-R" "Halal" 5 10 "uri") rs1 rs2 0
    rfl (by decide)

/-! ## C10 — generic ERC721 transfer bypasses the Batch record -/

/-- C10 (confirmed): `BatchNFT` inherits the generic ERC721 transfer
interface and overrides nothing, so `transferFrom` updates only the
`_owners` mapping. Starting from a state where the NFT owner and the stored
`currentOwner` agree (`= a`), a generic transfer to `b ≠ a`:
(1) succeeds and leaves every `Batch` field untouched (the whole `batches`
mapping is unchanged), so `ownerOf` (`= b`) and `getBatch(id).currentOwner`
(`= a`) now differ; (2) `markAsInTransit` (like `transferBatch`, which
performs the same two leading checks) authorizes by `ownerOf`: the stale
`currentOwner` `a` is refused with `AuthorizationError` while the new NFT
owner `b` succeeds; (3) `cancelBatch` authorizes by the stale stored
`currentOwner`: `a` can still cancel. -/
theorem erc721TransferFrom_stale_currentOwner (s : SysState) (a b tokenId : Nat)
    (reason : String)
    (hown : s.batchOwners tokenId = a) (ha : a ≠ 0) (hb : b ≠ 0) (hba : b ≠ a)
    (hcur : (s.batches tokenId).currentOwner = a)
    (hstatus : (s.batches tokenId).status = BatchStatus.Active) :
    ∃ s', erc721TransferFrom s a a b tokenId = .ok s'
      ∧ s'.batches = s.batches
      ∧ s'.batchOwners tokenId = b
      ∧ (s'.batches tokenId).currentOwner = a
      ∧ markAsInTransit s' a tokenId = .error .AuthorizationError
      ∧ (∃ s'', markAsInTransit s' b tokenId = .ok s'')
      ∧ (∃ s'', cancelBatch s' a tokenId reason = .ok s''
          ∧ (s''.batches tokenId).status = BatchStatus.Cancelled) := by
  refine ⟨{ s with batchOwners := updateMap s.batchOwners tokenId b }, ?_, rfl, ?_, hcur, ?_, ?_, ?_⟩
  · simp [erc721TransferFrom, hown, ha, hb]
  · simp [updateMap]
  · have hex : batchExists { s with batchOwners := updateMap s.batchOwners tokenId b } tokenId = true := by
      simp [batchExists, updateMap, hb]
    simp [markAsInTransit, hex, batchExists, updateMap, hb, hba]
  · refine ⟨{ s with batchOwners := updateMap s.batchOwners tokenId b, batches := updateMap s.batches tokenId ({ s.batches tokenId with status := BatchStatus.InTransit }) }, ?_⟩
    simp [markAsInTransit, batchExists, updateMap, hb, hstatus]
  · refine ⟨{ s with batchOwners := updateMap s.batchOwners tokenId b, batches := updateMap s.batches tokenId ({ s.batches tokenId with status := BatchStatus.Cancelled }) }, ?_, ?_⟩
    · have hauth : ((s.batches tokenId).creator == a || (s.batches tokenId).currentOwner == a || s.batchContractOwner == a) = true := by
        simp [hcur]
      simp [cancelBatch, batchExists, updateMap, hb, hauth, hstatus]
    · simp [updateMap]

/-- Witness for C10's theorem: in `cs3`, batch 0 is `Active`, minted to and
owned by address 2; a generic transfer hands the NFT to address 9. -/
theorem erc721TransferFrom_stale_currentOwner_witness :
    ∃ s', erc721TransferFrom cs3 2 2 9 0 = .ok s'
      ∧ s'.batches = cs3.batches
      ∧ s'.batchOwners 0 = 9
      ∧ (s'.batches 0).currentOwner = 2
      ∧ markAsInTransit s' 2 0 = .error .AuthorizationError
      ∧ (∃ s'', markAsInTransit s' 9 0 = .ok s'')
      ∧ (∃ s'', cancelBatch s' 2 0 "stale" = .ok s''
          ∧ (s''.batches 0).status = BatchStatus.Cancelled) :=
  erc721TransferFrom_stale_currentOwner cs3 2 9 0 "stale" rfl (by decide) (by decide)
    (by decide) rfl rfl

/-! ## C1 — duplicate-freedom of linkedCertificateIds -/

/-- All stored batches have duplicate-free certificate lists. -/
def linksNodup (s : SysState) : Prop :=
  ∀ id, (s.batches id).linkedCertificateIds.Nodup

theorem linksNodup_init (certDeployer batchDeployer t0 : Nat) :
    linksNodup (initState certDeployer batchDeployer t0) := by
  intro id
  simp [initState, defaultBatch]

theorem linksNodup_step (op : Op) (s s' : SysState) (hnd : nodupCreateInput op)
    (h : step op s = .ok s') (hinv : linksNodup s) : linksNodup s' := by
  intro id
  cases op with
  | tick dt =>
    simp only [step] at h
    injection h with h
    subst h
    exact hinv id
  | authorizeCertifier c a =>
    simp only [step, authorizeCertifier] at h
    split_ifs at h
    injection h with h
    subst h
    exact hinv id
  | revokeCertifier c a =>
    simp only [step, revokeCertifier] at h
    split_ifs at h
    injection h with h
    subst h
    exact hinv id
  | mintCertificate c ds ts e v m =>
    simp only [step, mintCertificate] at h
    split_ifs at h
    all_goals simp only [Except.map] at h
    all_goals try exact Except.noConfusion h
    injection h with h
    subst h
    exact hinv id
  | revokeCertificate c tid r =>
    simp only [step, revokeCertificate] at h
    split_ifs at h
    injection h with h
    subst h
    exact hinv id
  | authorizeProducer c a =>
    simp only [step, authorizeProducer] at h
    split_ifs at h
    injection h with h
    subst h
    exact hinv id
  | revokeProducer c a =>
    simp only [step, revokeProducer] at h
    split_ifs at h
    injection h with h
    subst h
    exact hinv id
  | authorizeVerifier c a =>
    simp only [step, authorizeVerifier] at h
    split_ifs at h
    injection h with h
    subst h
    exact hinv id
  | revokeVerifier c a =>
    simp only [step, revokeVerifier] at h
    split_ifs at h
    injection h with h
    subst h
    exact hinv id
  | createBatch c b p q u hts o l m =>
    simp only [step, createBatch] at h
    split_ifs at h
    all_goals simp only [Except.map] at h
    all_goals try exact Except.noConfusion h
    injection h with h
    subst h
    simp only [nodupCreateInput] at hnd
    by_cases hid : id = s.batchNextTokenId
    · subst hid
      simpa [updateMap] using hnd
    · simpa [updateMap, hid] using hinv id
  | verifyBatch c tid =>
    simp only [step, verifyBatch] at h
    split_ifs at h
    injection h with h
    subst h
    by_cases hid : id = tid
    · subst hid
      simpa [updateMap] using hinv id
    · simpa [updateMap, hid] using hinv id
  | transferBatch c tid t =>
    simp only [step, transferBatch] at h
    split_ifs at h
    injection h with h
    subst h
    by_cases hid : id = tid
    · subst hid
      simpa [updateMap] using hinv id
    · simpa [updateMap, hid] using hinv id
  | markAsInTransit c tid =>
    simp only [step, markAsInTransit] at h
    split_ifs at h
    injection h with h
    subst h
    by_cases hid : id = tid
    · subst hid
      simpa [updateMap] using hinv id
    · simpa [updateMap, hid] using hinv id
  | cancelBatch c tid r =>
    simp only [step, cancelBatch] at h
    split_ifs at h
    injection h with h
    subst h
    by_cases hid : id = tid
    · subst hid
      simpa [updateMap] using hinv id
    · simpa [updateMap, hid] using hinv id
  | linkCertificate c tid cid =>
    simp only [step, linkCertificate] at h
    split_ifs at h with h1 h2 h3 h4
    injection h with h
    subst h
    by_cases hid : id = tid
    · subst hid
      have hmem : cid ∉ (s.batches id).linkedCertificateIds := by
        simpa using h4
      simp [updateMap, List.nodup_append, hinv id, hmem]
    · simpa [updateMap, hid] using hinv id
  | erc721TransferFrom c f t tid =>
    simp only [step, erc721TransferFrom] at h
    split_ifs at h
    injection h with h
    subst h
    exact hinv id

theorem reachableND_linksNodup (s : SysState) (h : ReachableND s) : linksNodup s := by
  induction h with
  | init dc db t0 hc hb => exact linksNodup_init dc db t0
  | next op s s' _ hnd hs ih => exact linksNodup_step op s s' hnd hs ih

theorem reachableND_cs0 : ReachableND cs0 :=
  ReachableND.init 1 2 100 (by decide) (by decide)

theorem reachableND_cs1 : ReachableND cs1 :=
  ReachableND.next (Op.mintCertificate 1 "HALAL-1" "Halal" 5 3600 "uri") cs0 cs1
    reachableND_cs0 trivial rfl

theorem reachableND_cs2 : ReachableND cs2 :=
  ReachableND.next (Op.createBatch 2 "B-1" "Palm" 10 "kg" 50 "Sabah" [0] "uri") cs1 cs2
    reachableND_cs1 (by simp [nodupCreateInput]) rfl

theorem reachableND_cs3 : ReachableND cs3 :=
  ReachableND.next (Op.verifyBatch 2 0) cs2 cs3 reachableND_cs2 trivial rfl

/-- C1 (amended): `createBatch` copies its input list verbatim — it does NOT
reject duplicates inside the input — so duplicate-freedom of
`linkedCertificateIds` is an invariant only of histories in which every
`createBatch` was given a duplicate-free list (`ReachableND`). In such
histories every stored batch has a duplicate-free list, and
`linkCertificate` does refuse a certificate id that is already present,
failing with `StateConflictError`. -/
theorem linkedCertificateIds_nodup (s : SysState) (h : ReachableND s) :
    (∀ id, (s.batches id).linkedCertificateIds.Nodup)
    ∧ (∀ caller tokenId certificateId,
        batchExists s tokenId = true →
        ((s.batches tokenId).creator = caller ∨ (s.batches tokenId).currentOwner = caller) →
        isValid s certificateId = true →
        certificateId ∈ (s.batches tokenId).linkedCertificateIds →
        linkCertificate s caller tokenId certificateId = .error .StateConflictError) := by
  refine ⟨reachableND_linksNodup s h, ?_⟩
  intro caller tokenId certificateId hex hauth hval hmem
  have hauth' : ((s.batches tokenId).creator == caller
      || (s.batches tokenId).currentOwner == caller) = true := by
    rcases hauth with h' | h' <;> simp [h']
  have hmem' : (s.batches tokenId).linkedCertificateIds.contains certificateId = true := by
    simpa using hmem
  simp only [linkCertificate, hex, hauth', hval, hmem']
  simp [hmem]

/-- Witness for C1's theorem in the concrete duplicate-free history `cs3`:
batch 0's list is duplicate-free, and re-linking the already linked
certificate 0 fails with `StateConflictError`. -/
theorem linkedCertificateIds_nodup_witness :
    (cs3.batches 0).linkedCertificateIds.Nodup
    ∧ linkCertificate cs3 2 0 0 = .error .StateConflictError :=
  ⟨(linkedCertificateIds_nodup cs3 reachableND_cs3).1 0,
   (linkedCertificateIds_nodup cs3 reachableND_cs3).2 2 0 0 rfl (Or.inl rfl) rfl
     (by decide)⟩

/-- State created from `cs1` by a `createBatch` whose input list contains
the same certificate id twice. -/
def cd2 : SysState :=
  okStateP (createBatch cs1 2 "B-D" "Palm" 10 "kg" 50 "Sabah" [0, 0] "uri") cs1

theorem reachable_cd2 : Reachable cd2 :=
  Reachable.next (Op.createBatch 2 "B-D" "Palm" 10 "kg" 50 "Sabah" [0, 0] "uri") cs1 cd2
    reachable_cs1 rfl

/-- C1 counterexample: `createBatch` called with the duplicate-containing
list `[0, 0]` (certificate 0 is valid) does not fail with
`ValidationError` — it succeeds, and the reachable state it produces stores
a batch whose `linkedCertificateIds` contains a duplicate. -/
theorem createBatch_duplicate_input_counterexample :
    createBatch cs1 2 "B-D" "Palm" 10 "kg" 50 "Sabah" [0, 0] "uri" = .ok (cd2, 0)
    ∧ Reachable cd2
    ∧ (cd2.batches 0).linkedCertificateIds = [0, 0]
    ∧ ¬ (cd2.batches 0).linkedCertificateIds.Nodup :=
  ⟨rfl, reachable_cd2, rfl, by decide⟩

/-! ## C8 — verifyBatch machinery

Inductive invariants of reachable states used to settle C8:
a pending id is unminted, stores a `PendingVerification` record with a
non-zero creator, and lies below `batchNextTokenId`; ids at or above
`batchNextTokenId` are neither pending nor minted; the zero address never
holds the producer role. -/
def BatchInv (s : SysState) : Prop :=
  (∀ id, s.pendingVerification id = true →
      s.batchOwners id = 0
      ∧ (s.batches id).status = BatchStatus.PendingVerification
      ∧ id < s.batchNextTokenId
      ∧ (s.batches id).creator ≠ 0)
  ∧ (∀ id, s.batchNextTokenId ≤ id →
      s.pendingVerification id = false ∧ s.batchOwners id = 0)
  ∧ s.authorizedProducers 0 = false

theorem inv_init (certDeployer batchDeployer t0 : Nat) (hb : batchDeployer ≠ 0) :
    BatchInv (initState certDeployer batchDeployer t0) := by
  refine ⟨?_, ?_, ?_⟩
  · intro id hp
    simp [initState] at hp
  · intro id _
    simp [initState]
  · simp [initState]
    exact fun hh => hb hh.symm

theorem inv_step (op : Op) (s s' : SysState) (h : step op s = .ok s')
    (hinv : BatchInv s) : BatchInv s' := by
  obtain ⟨h1, h2, h3⟩ := hinv
  cases op with
  | tick dt =>
    simp only [step] at h
    injection h with h
    subst h
    exact ⟨h1, h2, h3⟩
  | authorizeCertifier c a =>
    simp only [step, authorizeCertifier] at h
    split_ifs at h
    injection h with h
    subst h
    exact ⟨h1, h2, h3⟩
  | revokeCertifier c a =>
    simp only [step, revokeCertifier] at h
    split_ifs at h
    injection h with h
    subst h
    exact ⟨h1, h2, h3⟩
  | mintCertificate c ds ts e v m =>
    simp only [step, mintCertificate] at h
    split_ifs at h
    all_goals simp only [Except.map] at h
    all_goals try exact Except.noConfusion h
    injection h with h
    subst h
    exact ⟨h1, h2, h3⟩
  | revokeCertificate c tid r =>
    simp only [step, revokeCertificate] at h
    split_ifs at h
    injection h with h
    subst h
    exact ⟨h1, h2, h3⟩
  | authorizeProducer c a =>
    simp only [step, authorizeProducer] at h
    split_ifs at h with hA hB hC
    injection h with h
    subst h
    refine ⟨h1, h2, ?_⟩
    have hza : (0 : Nat) ≠ a := fun hh => hB hh.symm
    simp [updateMap, hza, h3]
  | revokeProducer c a =>
    simp only [step, revokeProducer] at h
    split_ifs at h
    injection h with h
    subst h
    refine ⟨h1, h2, ?_⟩
    simp only [updateMap]
    split
    · rfl
    · exact h3
  | authorizeVerifier c a =>
    simp only [step, authorizeVerifier] at h
    split_ifs at h
    injection h with h
    subst h
    exact ⟨h1, h2, h3⟩
  | revokeVerifier c a =>
    simp only [step, revokeVerifier] at h
    split_ifs at h
    injection h with h
    subst h
    exact ⟨h1, h2, h3⟩
  | createBatch c b p q u hts o l m =>
    simp only [step, createBatch] at h
    split_ifs at h with hA hB hC hD
    all_goals simp only [Except.map] at h
    all_goals try exact Except.noConfusion h
    injection h with h
    subst h
    have hc : s.authorizedProducers c = true := by simpa using hA
    have hcz : c ≠ 0 := by
      intro h0
      rw [h0, h3] at hc
      exact Bool.noConfusion hc
    refine ⟨?_, ?_, h3⟩
    · intro id hp
      by_cases hid : id = s.batchNextTokenId
      · refine ⟨(h2 id (le_of_eq hid.symm)).2, ?_, ?_, ?_⟩
        · simp [updateMap, hid]
        · show id < s.batchNextTokenId + 1
          omega
        · simp [updateMap, hid]
          exact hcz
      · simp only [updateMap, if_neg hid] at hp
        obtain ⟨ho, hs, hlt, hcr⟩ := h1 id hp
        refine ⟨ho, ?_, Nat.lt_succ_of_lt hlt, ?_⟩
        · simpa [updateMap, hid] using hs
        · simpa [updateMap, hid] using hcr
    · intro id hle
      have hle2 : s.batchNextTokenId + 1 ≤ id := hle
      have hid : id ≠ s.batchNextTokenId := by omega
      have hle' : s.batchNextTokenId ≤ id := by omega
      refine ⟨?_, (h2 id hle').2⟩
      simpa [updateMap, hid] using (h2 id hle').1
  | verifyBatch c tid =>
    simp only [step, verifyBatch] at h
    split_ifs at h with hA hB hC hD
    injection h with h
    subst h
    have hpend : s.pendingVerification tid = true := by simpa using hB
    refine ⟨?_, ?_, h3⟩
    · intro id hp
      have hid : id ≠ tid := by
        intro h0
        subst h0
        simp [updateMap] at hp
      simp only [updateMap, if_neg hid] at hp
      obtain ⟨ho, hs, hlt, hcr⟩ := h1 id hp
      refine ⟨?_, ?_, hlt, ?_⟩
      · simpa [updateMap, hid] using ho
      · simpa [updateMap, hid] using hs
      · simpa [updateMap, hid] using hcr
    · intro id hle
      have hid : id ≠ tid := by
        intro h0
        subst h0
        exact absurd hpend (by simp [(h2 id hle).1])
      refine ⟨?_, ?_⟩
      · simpa [updateMap, hid] using (h2 id hle).1
      · simpa [updateMap, hid] using (h2 id hle).2
  | transferBatch c tid t =>
    simp only [step, transferBatch] at h
    split_ifs at h with hA hB hC hD
    injection h with h
    subst h
    have hex : s.batchOwners tid ≠ 0 := by
      intro h0
      exact absurd (by simpa [batchExists] using hA) (by simp [h0])
    refine ⟨?_, ?_, h3⟩
    · intro id hp
      obtain ⟨ho, hs, hlt, hcr⟩ := h1 id hp
      have hid : id ≠ tid := fun h0 => hex (h0 ▸ ho)
      refine ⟨?_, ?_, hlt, ?_⟩
      · simpa [updateMap, hid] using ho
      · simpa [updateMap, hid] using hs
      · simpa [updateMap, hid] using hcr
    · intro id hle
      have hid : id ≠ tid := fun h0 => hex (h0 ▸ (h2 id hle).2)
      refine ⟨(h2 id hle).1, ?_⟩
      simpa [updateMap, hid] using (h2 id hle).2
  | markAsInTransit c tid =>
    simp only [step, markAsInTransit] at h
    split_ifs at h with hA hB hC
    injection h with h
    subst h
    have hex : s.batchOwners tid ≠ 0 := by
      intro h0
      exact absurd (by simpa [batchExists] using hA) (by simp [h0])
    refine ⟨?_, ?_, h3⟩
    · intro id hp
      obtain ⟨ho, hs, hlt, hcr⟩ := h1 id hp
      have hid : id ≠ tid := fun h0 => hex (h0 ▸ ho)
      refine ⟨ho, ?_, hlt, ?_⟩
      · simpa [updateMap, hid] using hs
      · simpa [updateMap, hid] using hcr
    · intro id hle
      exact h2 id hle
  | cancelBatch c tid r =>
    simp only [step, cancelBatch] at h
    split_ifs at h with hA hB hC
    injection h with h
    subst h
    have hex : s.batchOwners tid ≠ 0 := by
      intro h0
      exact absurd (by simpa [batchExists] using hA) (by simp [h0])
    refine ⟨?_, ?_, h3⟩
    · intro id hp
      obtain ⟨ho, hs, hlt, hcr⟩ := h1 id hp
      have hid : id ≠ tid := fun h0 => hex (h0 ▸ ho)
      refine ⟨ho, ?_, hlt, ?_⟩
      · simpa [updateMap, hid] using hs
      · simpa [updateMap, hid] using hcr
    · intro id hle
      exact h2 id hle
  | linkCertificate c tid cid =>
    simp only [step, linkCertificate] at h
    split_ifs at h with hA hB hC hD
    injection h with h
    subst h
    have hex : s.batchOwners tid ≠ 0 := by
      intro h0
      exact absurd (by simpa [batchExists] using hA) (by simp [h0])
    refine ⟨?_, ?_, h3⟩
    · intro id hp
      obtain ⟨ho, hs, hlt, hcr⟩ := h1 id hp
      have hid : id ≠ tid := fun h0 => hex (h0 ▸ ho)
      refine ⟨ho, ?_, hlt, ?_⟩
      · simpa [updateMap, hid] using hs
      · simpa [updateMap, hid] using hcr
    · intro id hle
      exact h2 id hle
  | erc721TransferFrom c f t tid =>
    simp only [step, erc721TransferFrom] at h
    split_ifs at h with hA hB hC hD
    injection h with h
    subst h
    refine ⟨?_, ?_, h3⟩
    · intro id hp
      obtain ⟨ho, hs, hlt, hcr⟩ := h1 id hp
      have hid : id ≠ tid := fun h0 => hB (h0 ▸ ho)
      refine ⟨?_, hs, hlt, hcr⟩
      simpa [updateMap, hid] using ho
    · intro id hle
      have hid : id ≠ tid := fun h0 => hB (h0 ▸ (h2 id hle).2)
      refine ⟨(h2 id hle).1, ?_⟩
      simpa [updateMap, hid] using (h2 id hle).2

theorem reachable_inv (s : SysState) (h : Reachable s) : BatchInv s := by
  induction h with
  | init dc db t0 hc hb => exact inv_init dc db t0 hb
  | next op s s' _ hs ih => exact inv_step op s s' hs ih

theorem pending_false_persists (op : Op) (s s' : SysState) (h : step op s = .ok s')
    (id : Nat) (hlt : id < s.batchNextTokenId)
    (hp : s.pendingVerification id = false) : s'.pendingVerification id = false := by
  cases op with
  | tick dt =>
    simp only [step] at h
    injection h with h
    subst h
    exact hp
  | authorizeCertifier c a =>
    simp only [step, authorizeCertifier] at h
    split_ifs at h
    injection h with h
    subst h
    exact hp
  | revokeCertifier c a =>
    simp only [step, revokeCertifier] at h
    split_ifs at h
    injection h with h
    subst h
    exact hp
  | mintCertificate c ds ts e v m =>
    simp only [step, mintCertificate] at h
    split_ifs at h
    all_goals simp only [Except.map] at h
    all_goals try exact Except.noConfusion h
    injection h with h
    subst h
    exact hp
  | revokeCertificate c tid r =>
    simp only [step, revokeCertificate] at h
    split_ifs at h
    injection h with h
    subst h
    exact hp
  | authorizeProducer c a =>
    simp only [step, authorizeProducer] at h
    split_ifs at h
    injection h with h
    subst h
    exact hp
  | revokeProducer c a =>
    simp only [step, revokeProducer] at h
    split_ifs at h
    injection h with h
    subst h
    exact hp
  | authorizeVerifier c a =>
    simp only [step, authorizeVerifier] at h
    split_ifs at h
    injection h with h
    subst h
    exact hp
  | revokeVerifier c a =>
    simp only [step, revokeVerifier] at h
    split_ifs at h
    injection h with h
    subst h
    exact hp
  | createBatch c b p q u hts o l m =>
    simp only [step, createBatch] at h
    split_ifs at h
    all_goals simp only [Except.map] at h
    all_goals try exact Except.noConfusion h
    injection h with h
    subst h
    have hid : id ≠ s.batchNextTokenId := by omega
    simpa [updateMap, hid] using hp
  | verifyBatch c tid =>
    simp only [step, verifyBatch] at h
    split_ifs at h
    injection h with h
    subst h
    by_cases hid : id = tid
    · simp [updateMap, hid]
    · simpa [updateMap, hid] using hp
  | transferBatch c tid t =>
    simp only [step, transferBatch] at h
    split_ifs at h
    injection h with h
    subst h
    exact hp
  | markAsInTransit c tid =>
    simp only [step, markAsInTransit] at h
    split_ifs at h
    injection h with h
    subst h
    exact hp
  | cancelBatch c tid r =>
    simp only [step, cancelBatch] at h
    split_ifs at h
    injection h with h
    subst h
    exact hp
  | linkCertificate c tid cid =>
    simp only [step, linkCertificate] at h
    split_ifs at h
    injection h with h
    subst h
    exact hp
  | erc721TransferFrom c f t tid =>
    simp only [step, erc721TransferFrom] at h
    split_ifs at h
    injection h with h
    subst h
    exact hp

theorem pending_true_persists (op : Op) (s s' : SysState) (h : step op s = .ok s')
    (hinv : BatchInv s) (id : Nat) (hne : ∀ c, op ≠ Op.verifyBatch c id)
    (hp : s.pendingVerification id = true) :
    s'.pendingVerification id = true
    ∧ (s'.batches id).status = BatchStatus.PendingVerification := by
  obtain ⟨ho, hs, hlt, hcr⟩ := hinv.1 id hp
  cases op with
  | tick dt =>
    simp only [step] at h
    injection h with h
    subst h
    exact ⟨hp, hs⟩
  | authorizeCertifier c a =>
    simp only [step, authorizeCertifier] at h
    split_ifs at h
    injection h with h
    subst h
    exact ⟨hp, hs⟩
  | revokeCertifier c a =>
    simp only [step, revokeCertifier] at h
    split_ifs at h
    injection h with h
    subst h
    exact ⟨hp, hs⟩
  | mintCertificate c ds ts e v m =>
    simp only [step, mintCertificate] at h
    split_ifs at h
    all_goals simp only [Except.map] at h
    all_goals try exact Except.noConfusion h
    injection h with h
    subst h
    exact ⟨hp, hs⟩
  | revokeCertificate c tid r =>
    simp only [step, revokeCertificate] at h
    split_ifs at h
    injection h with h
    subst h
    exact ⟨hp, hs⟩
  | authorizeProducer c a =>
    simp only [step, authorizeProducer] at h
    split_ifs at h
    injection h with h
    subst h
    exact ⟨hp, hs⟩
  | revokeProducer c a =>
    simp only [step, revokeProducer] at h
    split_ifs at h
    injection h with h
    subst h
    exact ⟨hp, hs⟩
  | authorizeVerifier c a =>
    simp only [step, authorizeVerifier] at h
    split_ifs at h
    injection h with h
    subst h
    exact ⟨hp, hs⟩
  | revokeVerifier c a =>
    simp only [step, revokeVerifier] at h
    split_ifs at h
    injection h with h
    subst h
    exact ⟨hp, hs⟩
  | createBatch c b p q u hts o l m =>
    simp only [step, createBatch] at h
    split_ifs at h
    all_goals simp only [Except.map] at h
    all_goals try exact Except.noConfusion h
    injection h with h
    subst h
    have hid : id ≠ s.batchNextTokenId := by omega
    constructor
    · simpa [updateMap, hid] using hp
    · simpa [updateMap, hid] using hs
  | verifyBatch c tid =>
    have htid : tid ≠ id := by
      intro h0
      exact hne c (by rw [h0])
    simp only [step, verifyBatch] at h
    split_ifs at h
    injection h with h
    subst h
    constructor
    · simpa [updateMap, Ne.symm htid] using hp
    · simpa [updateMap, Ne.symm htid] using hs
  | transferBatch c tid t =>
    simp only [step, transferBatch] at h
    split_ifs at h with hA hB hC hD
    injection h with h
    subst h
    have hex : s.batchOwners tid ≠ 0 := by
      intro h0
      exact absurd (by simpa [batchExists] using hA) (by simp [h0])
    have hid : id ≠ tid := fun h0 => hex (h0 ▸ ho)
    exact ⟨hp, by simpa [updateMap, hid] using hs⟩
  | markAsInTransit c tid =>
    simp only [step, markAsInTransit] at h
    split_ifs at h with hA hB hC
    injection h with h
    subst h
    have hex : s.batchOwners tid ≠ 0 := by
      intro h0
      exact absurd (by simpa [batchExists] using hA) (by simp [h0])
    have hid : id ≠ tid := fun h0 => hex (h0 ▸ ho)
    exact ⟨hp, by simpa [updateMap, hid] using hs⟩
  | cancelBatch c tid r =>
    simp only [step, cancelBatch] at h
    split_ifs at h with hA hB hC
    injection h with h
    subst h
    have hex : s.batchOwners tid ≠ 0 := by
      intro h0
      exact absurd (by simpa [batchExists] using hA) (by simp [h0])
    have hid : id ≠ tid := fun h0 => hex (h0 ▸ ho)
    exact ⟨hp, by simpa [updateMap, hid] using hs⟩
  | linkCertificate c tid cid =>
    simp only [step, linkCertificate] at h
    split_ifs at h with hA hB hC hD
    injection h with h
    subst h
    have hex : s.batchOwners tid ≠ 0 := by
      intro h0
      exact absurd (by simpa [batchExists] using hA) (by simp [h0])
    have hid : id ≠ tid := fun h0 => hex (h0 ▸ ho)
    exact ⟨hp, by simpa [updateMap, hid] using hs⟩
  | erc721TransferFrom c f t tid =>
    simp only [step, erc721TransferFrom] at h
    split_ifs at h
    injection h with h
    subst h
    exact ⟨hp, hs⟩

/-- C8 (confirmed): in every reachable state, for an authorized verifier:
(1) if the pending flag of `tokenId` is set (the state `createBatch` leaves
a batch in), `verifyBatch` succeeds, the stored status goes from
`PendingVerification` to `Active` and the flag is cleared; (2) if the flag
is clear, `verifyBatch` fails with `StateConflictError` (and, the
transaction being discarded, leaves the status unchanged); (3) once the
flag of an already-assigned id is clear no transition ever sets it again —
so after the first successful verify every later `verifyBatch` on the same
id fails with `StateConflictError`; (4) no successful transition other than
`verifyBatch` on that very id clears the flag or moves the status out of
`PendingVerification` — `verifyBatch` is the only path out. -/
theorem verifyBatch_once (s : SysState) (hreach : Reachable s) (caller tokenId : Nat)
    (hver : s.authorizedVerifiers caller = true) :
    (s.pendingVerification tokenId = true →
      (s.batches tokenId).status = BatchStatus.PendingVerification
      ∧ ∃ s', verifyBatch s caller tokenId = .ok s'
          ∧ (s'.batches tokenId).status = BatchStatus.Active
          ∧ s'.pendingVerification tokenId = false)
    ∧ (s.pendingVerification tokenId = false →
        verifyBatch s caller tokenId = .error .StateConflictError)
    ∧ (∀ op s', step op s = .ok s' → tokenId < s.batchNextTokenId →
        s.pendingVerification tokenId = false → s'.pendingVerification tokenId = false)
    ∧ (∀ op s', step op s = .ok s' → (∀ c, op ≠ Op.verifyBatch c tokenId) →
        s.pendingVerification tokenId = true →
        s'.pendingVerification tokenId = true
        ∧ (s'.batches tokenId).status = BatchStatus.PendingVerification) := by
  refine ⟨?_, ?_, ?_, ?_⟩
  · intro hp
    obtain ⟨ho, hs, hlt, hcr⟩ := (reachable_inv s hreach).1 tokenId hp
    refine ⟨hs, { s with batchOwners := updateMap s.batchOwners tokenId (s.batches tokenId).creator, batches := updateMap s.batches tokenId ({ s.batches tokenId with status := BatchStatus.Active }), pendingVerification := updateMap s.pendingVerification tokenId false }, ?_, ?_, ?_⟩
    · simp [verifyBatch, hver, hp, hcr, ho]
    · simp [updateMap]
    · simp [updateMap]
  · intro hp
    simp [verifyBatch, hver, hp]
  · intro op s' h hlt hp
    exact pending_false_persists op s s' h tokenId hlt hp
  · intro op s' h hne hp
    exact pending_true_persists op s s' h (reachable_inv s hreach) tokenId hne hp

/-- Witness for C8's theorem: in `cs2` the pending batch 0 is verified by
verifier 2 (conjuncts 1), and in `cs3` — the state that verify produced —
a second verify fails with `StateConflictError` (conjunct 2). -/
theorem verifyBatch_once_witness :
    ((cs2.batches 0).status = BatchStatus.PendingVerification
      ∧ ∃ s', verifyBatch cs2 2 0 = .ok s'
          ∧ (s'.batches 0).status = BatchStatus.Active
          ∧ s'.pendingVerification 0 = false)
    ∧ verifyBatch cs3 2 0 = .error .StateConflictError :=
  ⟨(verifyBatch_once cs2 reachable_cs2 2 0 rfl).1 rfl,
   (verifyBatch_once cs3 reachable_cs3 2 0 rfl).2.1 rfl⟩
